import Mathlib

/-!
Verification development for the libav-screencap transcode pipeline
(src/main.cpp, src/libav.hpp).

The C++ sources are shallowly embedded: the libav wrapper classes
(`Packet`, `Frame`, `DecoderContext`, `EncoderContext`, `FormatContext`)
become Lean functions over explicit data, and the calls into the external
libav/swscale libraries are modelled by environment records whose fields
choose the result of each external call (allocation success, swscale
behaviour, codec drain results, write results).  Null smart-pointer
handles are `Option.none`; a C++ dereference of a null handle is the
explicit `Outcome.nullDeref` outcome (undefined behaviour in the source).
-/

/-- Raw video frame payload: the fields of `AVFrame` that the repository
reads or writes (`width`, `height`, `format`, `pts`, `pkt_dts`,
`pict_type`) plus an opaque pixel buffer. -/
structure AVFrameData where
  width : Int
  height : Int
  format : Int
  pts : Int
  pkt_dts : Int
  pict_type : Int
  data : List Int
deriving Repr, DecidableEq

/-- Compressed packet payload: the fields of `AVPacket` that the
repository reads or writes. -/
structure AVPacketData where
  stream_index : Int
  pts : Int
  dts : Int
  data : List Int
deriving Repr, DecidableEq

/-- `AV_PIX_FMT_YUV420P`, the fixed encoder pixel format of main.cpp. -/
def AV_PIX_FMT_YUV420P : Int := 0

/-- `AV_PIX_FMT_NONE`, the format of a freshly allocated `AVFrame`. -/
def AV_PIX_FMT_NONE : Int := -1

/-- `AV_PICTURE_TYPE_NONE`, written by `EncoderContext::send_frame`. -/
def AV_PICTURE_TYPE_NONE : Int := 0

/-- Result of running a piece of C++ code: either a value, or the code
dereferenced a null handle (undefined behaviour; in practice a crash). -/
inductive Outcome (α : Type) where
  | ok : α → Outcome α
  | nullDeref : Outcome α
deriving Repr, DecidableEq

/-- Environment for one `Frame::scale` / `Frame::alloc` call: the results
of the external libav/swscale calls it makes.  `swsScaleRows` is the row
count that `sws_scale` reports for this call. -/
structure ScaleEnv where
  frameAllocOk : Bool
  getBufferOk : Bool
  swsGetContextOk : Bool
  swsInitOk : Bool
  swsScaleRows : Int
deriving Repr, DecidableEq

namespace Frame

/-- `Frame::alloc()` (libav.hpp:82): wraps `av_frame_alloc`, which yields
a zero-initialised frame or NULL (modelled by `env.frameAllocOk`). -/
def alloc_empty (env : ScaleEnv) : Option AVFrameData :=
  if env.frameAllocOk then
    some { width := 0, height := 0, format := AV_PIX_FMT_NONE,
           pts := 0, pkt_dts := 0, pict_type := 0, data := [] }
  else none

/-- The buffer `av_frame_get_buffer` attaches for given dimensions. -/
def frameBuffer (w h : Int) : List Int :=
  List.replicate (w.toNat * h.toNat) 0

/-- `Frame::alloc(w, h, pix_fmt)` (libav.hpp:99-110).  The source writes
`frame->width`, `frame->height`, `frame->format` on the result of
`alloc()` without a null check, so a failed `av_frame_alloc` is a null
dereference.  A failed `av_frame_get_buffer` returns the null frame. -/
def alloc (env : ScaleEnv) (w h fmt : Int) : Outcome (Option AVFrameData) :=
  match alloc_empty env with
  | none => Outcome.nullDeref
  | some f =>
    let f := { f with width := w, height := h, format := fmt }
    if env.getBufferOk then Outcome.ok (some { f with data := frameBuffer w h })
    else Outcome.ok none

/-- The external `sws_scale` call (const source, written destination):
returns the reported row count, the source unchanged (the API takes the
source planes as const), and the destination with converted pixel data. -/
def sws_scale_model (env : ScaleEnv) (src dst : AVFrameData) :
    Int × AVFrameData × AVFrameData :=
  (env.swsScaleRows, src, { dst with data := src.data })

/-- Result of a `Frame::scale` call together with the (unchanged) source
frame after the call. -/
structure ScaleOut where
  res : Outcome (Option AVFrameData)
  srcAfter : AVFrameData
deriving Repr, DecidableEq

/-- `Frame::scale(w, h, pix_fmt)` (libav.hpp:124-151): allocates the
target frame, builds an `SwsContext`, converts, and returns the null
frame unless the reported row count equals the target frame's height.
If the inner `alloc` returned the null frame, the source reads
`sframe->width` etc. through the null handle (null dereference). -/
def scale (env : ScaleEnv) (iframe : AVFrameData) (w h fmt : Int) : ScaleOut :=
  match alloc env w h fmt with
  | Outcome.nullDeref => { res := Outcome.nullDeref, srcAfter := iframe }
  | Outcome.ok none => { res := Outcome.nullDeref, srcAfter := iframe }
  | Outcome.ok (some sframe) =>
    if ¬ env.swsGetContextOk then { res := Outcome.ok none, srcAfter := iframe }
    else if ¬ env.swsInitOk then { res := Outcome.ok none, srcAfter := iframe }
    else
      let r := sws_scale_model env iframe sframe
      if r.1 ≠ sframe.height then { res := Outcome.ok none, srcAfter := r.2.1 }
      else { res := Outcome.ok (some r.2.2), srcAfter := r.2.1 }

end Frame

/-- One result of an `avcodec_receive_frame` / `avcodec_receive_packet`
drain call: a drained unit, `AVERROR(EAGAIN)`, `AVERROR_EOF`, or another
negative error code.  The payload type is generic so that the driver can
attach each drained unit's processing environment to it. -/
inductive DrainStep (α : Type) where
  | yield : α → DrainStep α
  | eagain : DrainStep α
  | eof : DrainStep α
  | err : Int → DrainStep α
deriving Repr, DecidableEq

/-- Observable event of a wrapper drain loop: a receive call (with its
result) or an invocation of the caller-supplied continuation. -/
inductive LoopEv (α : Type) where
  | drainCall : DrainStep α → LoopEv α
  | contCall : α → LoopEv α
deriving Repr, DecidableEq

/-- Result of a wrapper drain loop: whether the continuation crashed
(null dereference), the C++ return value, the final continuation state,
and the event trace. -/
structure LoopOut (α σ : Type) where
  crashed : Bool
  ret : Int
  state : σ
  events : List (LoopEv α)
deriving Repr, DecidableEq

/-- The shared `while (res >= 0) { ... receive ...; fn(...) }` drain loop
of `DecoderContext::send_packet` (libav.hpp:307-320) and
`EncoderContext::send_frame` (libav.hpp:226-239).  `errMap` is what the
wrapper returns on a hard receive error (the decoder returns the error
code itself, the encoder returns -1).  The continuation returns
(crashed, return value, new state); a negative return value stops the
drain and is returned, per the source. -/
def drain_loop {α σ : Type} (errMap : Int → Int) (fn : σ → α → Bool × Int × σ) :
    List (DrainStep α) → σ → LoopOut α σ
  | [], s => { crashed := false, ret := 0, state := s, events := [] }
  | DrainStep.eagain :: _, s =>
    { crashed := false, ret := 0, state := s,
      events := [LoopEv.drainCall DrainStep.eagain] }
  | DrainStep.eof :: _, s =>
    { crashed := false, ret := 0, state := s,
      events := [LoopEv.drainCall DrainStep.eof] }
  | DrainStep.err e :: _, s =>
    { crashed := false, ret := errMap e, state := s,
      events := [LoopEv.drainCall (DrainStep.err e)] }
  | DrainStep.yield a :: rest, s =>
    match fn s a with
    | (true, r, s') =>
      { crashed := true, ret := r, state := s',
        events := [LoopEv.drainCall (DrainStep.yield a), LoopEv.contCall a] }
    | (false, r, s') =>
      if r < 0 then
        { crashed := false, ret := r, state := s',
          events := [LoopEv.drainCall (DrainStep.yield a), LoopEv.contCall a] }
      else
        let out := drain_loop errMap fn rest s'
        { crashed := out.crashed, ret := out.ret, state := out.state,
          events := LoopEv.drainCall (DrainStep.yield a) :: LoopEv.contCall a :: out.events }

namespace DecoderContext

/-- `DecoderContext::send_packet` (libav.hpp:304-323): submit one packet
(`sendRes` is the `avcodec_send_packet` result), then drain frames,
passing each to `fn`; `drains` is the schedule of receive results the
decoder produces for this packet.  If the initial submit fails the loop
is never entered and 0 is returned. -/
def send_packet {α σ : Type} (sendRes : Int) (drains : List (DrainStep α))
    (fn : σ → α → Bool × Int × σ) (s : σ) : LoopOut α σ :=
  if sendRes < 0 then { crashed := false, ret := 0, state := s, events := [] }
  else drain_loop id fn drains s

end DecoderContext

namespace EncoderContext

/-- `EncoderContext::send_frame` (libav.hpp:219-242): submit one frame
(`sendRes` is the `avcodec_send_frame` result), then drain packets,
passing each to `fn`.  A hard receive error returns -1 (unlike the
decoder, which returns the error code).  If the initial submit fails the
loop is never entered and 0 is returned. -/
def send_frame {α σ : Type} (sendRes : Int) (drains : List (DrainStep α))
    (fn : σ → α → Bool × Int × σ) (s : σ) : LoopOut α σ :=
  if sendRes < 0 then { crashed := false, ret := 0, state := s, events := [] }
  else drain_loop (fun _ => -1) fn drains s

end EncoderContext

/-- Environment for one frame drained from the decoder in the driver
loop: the frame itself, the environment of its `Frame::scale` call, and
the encoder's behaviour for it (`avcodec_send_frame` result plus the
drain schedule, each drained packet paired with its `av_write_frame`
result). -/
structure FrameJob where
  frame : AVFrameData
  scaleEnv : ScaleEnv
  encSendRes : Int
  encDrains : List (DrainStep (AVPacketData × Int))
deriving Repr, DecidableEq

/-- Driver state threaded through main.cpp's loop: the `frames` counter,
the frames handed to the encoder (`send_frame` arguments, in order), the
packets handed to `encode_callback` (in hand-off order, before
stamping), and the packets passed to `av_write_frame` (after stamping,
in write order). -/
structure DrvSt where
  counter : Int
  handed : List AVFrameData
  muxIn : List AVPacketData
  written : List AVPacketData
deriving Repr, DecidableEq

/-- `packet->stream_index = sIdx` from `encode_callback` (main.cpp:157). -/
def stamp (sIdx : Int) (p : AVPacketData) : AVPacketData :=
  { p with stream_index := sIdx }

/-- `encode_callback` (main.cpp:156-160): stamps the destination stream
index on the packet and writes it with `av_write_frame`, which appends
the packet directly to the output (no interleaving buffer); the write
result comes from the environment (second pair component). -/
def encode_callback (sIdx : Int) (st : DrvSt) (pw : AVPacketData × Int) :
    Bool × Int × DrvSt :=
  (false, pw.2,
    { st with muxIn := st.muxIn ++ [pw.1], written := st.written ++ [stamp sIdx pw.1] })

/-- `decode_callback` (main.cpp:162-168) applied to one drained frame:
scale the frame to its own width/height and `AV_PIX_FMT_YUV420P`, stamp
`pts = frames++ * time_base.num` and `pkt_dts = pts` on the scale result
(a null dereference when `scale` returned the null frame), and hand it
to `EncoderContext::send_frame` with `encode_callback` (which first
clears the picture type).  Returns (crashed, return value, state). -/
def processFrameJob (tbNum sIdx : Int) (st : DrvSt) (job : FrameJob) :
    Bool × Int × DrvSt :=
  match (Frame.scale job.scaleEnv job.frame job.frame.width job.frame.height
          AV_PIX_FMT_YUV420P).res with
  | Outcome.nullDeref => (true, 0, st)
  | Outcome.ok none => (true, 0, st)
  | Outcome.ok (some sf) =>
    let stamped := { sf with pts := st.counter * tbNum, pkt_dts := st.counter * tbNum }
    let sent := { stamped with pict_type := AV_PICTURE_TYPE_NONE }
    let st' := { st with counter := st.counter + 1, handed := st.handed ++ [sent] }
    let out := EncoderContext.send_frame job.encSendRes job.encDrains
                 (encode_callback sIdx) st'
    (false, out.ret, out.state)

/-- Environment for one iteration of main.cpp's read loop: `sigs` is the
number of `signal_handler` invocations (each does `stop = 1`) arriving
after the previous iteration's flag check and before this one; `readRes`
is the `av_read_frame` result; `decSendRes` is the `avcodec_send_packet`
result; `decDrains` is the decoder's drain schedule for this packet. -/
structure Iteration where
  sigs : Nat
  readRes : Int
  decSendRes : Int
  decDrains : List (DrainStep FrameJob)
deriving Repr

/-- Result of the read loop: final driver state, the stop-flag value
observed at each check (in order), the number of `av_read_frame` calls,
and whether the loop crashed on a null dereference. -/
structure DriverOut where
  st : DrvSt
  checks : List Bool
  reads : Nat
  crashed : Bool
deriving Repr

/-- main.cpp:176-181, `while (!stop) { av_read_frame; send_packet }`.
The flag is the accumulated signal count being positive (the handler
only ever writes 1; `sig` accumulates arrivals).  Per iteration: check
the flag once; if observed true, exit without reading; otherwise read
one packet (a negative read breaks the loop); otherwise run
`send_packet` with `decode_callback`, ignoring its return value.  A
null dereference inside the callback crashes the whole loop.  The
schedule list running out ends the loop (the environment provides as
many iterations as the run performs). -/
def driver_loop (tbNum sIdx : Int) :
    List Iteration → Nat → DrvSt → DriverOut
  | [], _, st => { st := st, checks := [], reads := 0, crashed := false }
  | it :: rest, sig, st =>
    let sig' := sig + it.sigs
    if 0 < sig' then { st := st, checks := [true], reads := 0, crashed := false }
    else if it.readRes < 0 then
      { st := st, checks := [false], reads := 1, crashed := false }
    else
      let out := DecoderContext.send_packet it.decSendRes it.decDrains
                   (processFrameJob tbNum sIdx) st
      if out.crashed then
        { st := out.state, checks := [false], reads := 1, crashed := true }
      else
        let ro := driver_loop tbNum sIdx rest sig' out.state
        { st := ro.st, checks := false :: ro.checks, reads := ro.reads + 1,
          crashed := ro.crashed }

/-- The setup step at which `main` threw a `std::runtime_error`. -/
inductive SetupStage where
  | inputFormat
  | packetAlloc
  | inputOpen
  | decoderOpen
  | outputOpen
  | encoderAlloc
  | encoderOpen
  | streamCreate
  | headerWrite
deriving Repr, DecidableEq

/-- Environment for `main`'s setup phase (main.cpp:63-145): success of
each fallible setup call, the stream index returned by `create_stream`,
and the output time base numerator (`av_inv_q(framerate).num`). -/
structure SetupEnv where
  inputFormatOk : Bool
  packetAllocOk : Bool
  inputOpenOk : Bool
  streamFound : Bool
  decoderOpenOk : Bool
  outputOpenOk : Bool
  encoderAllocOk : Bool
  encoderOpenOk : Bool
  createStreamRes : Int
  headerWriteOk : Bool
  tbNum : Int
deriving Repr, DecidableEq

/-- Observable result of a `main` run: the setup stage that threw (if
any), the loop results, whether the process crashed on a null
dereference, and whether `av_write_trailer` was reached. -/
structure MainOut where
  thrownAt : Option SetupStage
  st : DrvSt
  checks : List Bool
  reads : Nat
  crashed : Bool
  trailerWritten : Bool
deriving Repr

/-- A run that terminated before reaching the loop: a thrown setup error
or a setup-phase null dereference.  The trailer is never reached. -/
def MainOut.abort (t : Option SetupStage) (cr : Bool) : MainOut :=
  { thrownAt := t, st := { counter := 0, handed := [], muxIn := [], written := [] },
    checks := [], reads := 0, crashed := cr, trailerWritten := false }

/-- `main` (main.cpp:63-185).  Setup runs the fallible steps in source
order; each failure throws (uncaught, so the process terminates before
`av_write_trailer`).  `find_best_stream` returning NULL is not checked:
`input_avs->codecpar` then dereferences the null stream.  If setup
succeeds the read loop runs with the frame counter starting at 0, and
`av_write_trailer` is reached exactly when the loop did not crash. -/
def runMain (se : SetupEnv) (iters : List Iteration) : MainOut :=
  if ¬ se.inputFormatOk then MainOut.abort (some SetupStage.inputFormat) false
  else if ¬ se.packetAllocOk then MainOut.abort (some SetupStage.packetAlloc) false
  else if ¬ se.inputOpenOk then MainOut.abort (some SetupStage.inputOpen) false
  else if ¬ se.streamFound then MainOut.abort none true
  else if ¬ se.decoderOpenOk then MainOut.abort (some SetupStage.decoderOpen) false
  else if ¬ se.outputOpenOk then MainOut.abort (some SetupStage.outputOpen) false
  else if ¬ se.encoderAllocOk then MainOut.abort (some SetupStage.encoderAlloc) false
  else if ¬ se.encoderOpenOk then MainOut.abort (some SetupStage.encoderOpen) false
  else if se.createStreamRes < 0 then MainOut.abort (some SetupStage.streamCreate) false
  else if ¬ se.headerWriteOk then MainOut.abort (some SetupStage.headerWrite) false
  else
    let lo := driver_loop se.tbNum se.createStreamRes iters 0
                { counter := 0, handed := [], muxIn := [], written := [] }
    { thrownAt := none, st := lo.st, checks := lo.checks, reads := lo.reads,
      crashed := lo.crashed, trailerWritten := !lo.crashed }

/-- All of `main`'s fatal setup checks pass (and the best-stream lookup
found a stream). -/
def setupOk (se : SetupEnv) : Bool :=
  se.inputFormatOk && se.packetAllocOk && se.inputOpenOk && se.streamFound &&
  se.decoderOpenOk && se.outputOpenOk && se.encoderAllocOk && se.encoderOpenOk &&
  decide (0 ≤ se.createStreamRes) && se.headerWriteOk

/-- Whether a dts sequence is nondecreasing (the order an interleaving
muxer guarantees in the output file). -/
def dtsSorted : List Int → Bool
  | [] => true
  | [_] => true
  | a :: b :: rest => decide (a ≤ b) && dtsSorted (b :: rest)

/-- Modelled from the spec: the mux write the spec describes,
`write_packet(packet)` that interleaves packets by their declared
timestamps when the container format requires it (spec section 4.6).
The output file holds the written packets ordered by dts. -/
def av_interleaved_write_model (file : List AVPacketData) (p : AVPacketData) :
    List AVPacketData :=
  match file with
  | [] => [p]
  | q :: rest =>
    if p.dts < q.dts then p :: q :: rest
    else q :: av_interleaved_write_model rest p

/-- The output file produced by writing a packet sequence through the
spec's interleaving write. -/
def interleavedFile (ps : List AVPacketData) : List AVPacketData :=
  ps.foldl av_interleaved_write_model []

/-- A setup environment in which every fatal setup step succeeds; the
created stream has index 0 and the output time base is 1001/24000. -/
def seOK : SetupEnv :=
  { inputFormatOk := true, packetAllocOk := true, inputOpenOk := true,
    streamFound := true, decoderOpenOk := true, outputOpenOk := true,
    encoderAllocOk := true, encoderOpenOk := true, createStreamRes := 0,
    headerWriteOk := true, tbNum := 1001 }

/-- A scale environment in which every external call succeeds and
`sws_scale` reports 2 converted rows. -/
def scOK : ScaleEnv :=
  { frameAllocOk := true, getBufferOk := true, swsGetContextOk := true,
    swsInitOk := true, swsScaleRows := 2 }

/-- A concrete 2x2 BGR0-style source frame as decoded from the capture
stream. -/
def frameA : AVFrameData :=
  { width := 2, height := 2, format := 5, pts := 7, pkt_dts := 7,
    pict_type := 1, data := [1, 2, 3, 4] }

/-- A scale environment in which `av_frame_alloc` fails (returns NULL). -/
def scNoAlloc : ScaleEnv :=
  { frameAllocOk := false, getBufferOk := true, swsGetContextOk := true,
    swsInitOk := true, swsScaleRows := 2 }

/-- A scale environment in which `sws_getContext` fails, so
`Frame::scale` returns the null frame. -/
def scNoCtx : ScaleEnv :=
  { frameAllocOk := true, getBufferOk := true, swsGetContextOk := false,
    swsInitOk := true, swsScaleRows := 2 }

/-- A decoded frame whose scale step fails (null scale result). -/
def jobBadScale : FrameJob :=
  { frame := frameA, scaleEnv := scNoCtx, encSendRes := 0,
    encDrains := [DrainStep.eagain] }

/-- The driver state at loop entry (frame counter 0, nothing written). -/
def st0 : DrvSt := { counter := 0, handed := [], muxIn := [], written := [] }

/-- The canonical drain trace for a packet that yields exactly the
frames `ys` and then signals `EAGAIN`: each drained frame's receive call
is immediately followed by its (single) continuation call, and the
closing receive call comes after the last continuation has returned. -/
def canonEvents {α : Type} (ys : List α) : List (LoopEv α) :=
  (ys.map fun a => [LoopEv.drainCall (DrainStep.yield a), LoopEv.contCall a]).flatten
    ++ [LoopEv.drainCall DrainStep.eagain]

/-- The frames passed to the continuation, in trace order. -/
def contFrames {α : Type} (evs : List (LoopEv α)) : List α :=
  evs.filterMap fun e =>
    match e with
    | LoopEv.contCall a => some a
    | LoopEv.drainCall _ => none

/-- main.cpp's use of the decode stage over a run: submit each captured
packet in order via `DecoderContext::send_packet`, ignoring the return
value (main.cpp:180), threading the continuation state and concatenating
the event traces. -/
def send_packets {α σ : Type} (fn : σ → α → Bool × Int × σ) :
    List (Int × List (DrainStep α)) → σ → σ × List (LoopEv α)
  | [], s => (s, [])
  | p :: rest, s =>
    let out := DecoderContext.send_packet p.1 p.2 fn s
    let ro := send_packets fn rest out.state
    (ro.1, out.events ++ ro.2)

/-- A continuation that always succeeds (state untouched, returns 0). -/
def fnOkW : Unit → AVFrameData → Bool × Int × Unit := fun s _ => (false, 0, s)

/-- Two concrete submitted packets: the first drains one frame, the
second none. -/
def psW : List (Int × List AVFrameData) := [(0, [frameA]), (0, [])]

/-- The cross-iteration invariant of the driver state: the frame counter
equals the number of frames handed to the encoder; the handed frames
carry pts `0·t, 1·t, 2·t, …` in order with `pkt_dts = pts`; and the
written packets are exactly the hand-off packets with the stream index
stamped, in hand-off order. -/
def ptsSpec (tbNum : Int) (n : Nat) : List Int :=
  (List.range n).map (fun (i : Nat) => (i : Int) * tbNum)

def DrvInv (tbNum sIdx : Int) (st : DrvSt) : Prop :=
  st.counter = (st.handed.length : Int)
  ∧ st.handed.map (fun f => f.pts) = ptsSpec tbNum st.handed.length
  ∧ (∀ f ∈ st.handed, f.pkt_dts = f.pts)
  ∧ st.written = st.muxIn.map (stamp sIdx)

/-- A decoded frame whose whole chain succeeds: scale succeeds and the
encoder signals `EAGAIN` (no packet yet). -/
def jobGood : FrameJob :=
  { frame := frameA, scaleEnv := scOK, encSendRes := 0,
    encDrains := [DrainStep.eagain] }

/-- A loop iteration that reads one packet decoding to one good frame. -/
def itGood : Iteration :=
  { sigs := 0, readRes := 0, decSendRes := 0,
    decDrains := [DrainStep.yield jobGood, DrainStep.eagain] }

/-- A loop iteration whose single decoded frame fails to scale. -/
def itBad : Iteration :=
  { sigs := 0, readRes := 0, decSendRes := 0,
    decDrains := [DrainStep.yield jobBadScale, DrainStep.eagain] }

/-- An encoded packet with dts 5. -/
def pkt5 : AVPacketData := { stream_index := -1, pts := 5, dts := 5, data := [] }

/-- An encoded packet with dts 3. -/
def pkt3 : AVPacketData := { stream_index := -1, pts := 3, dts := 3, data := [] }

/-- A decoded frame for which the encoder drains two packets with
out-of-order dts (5 then 3), both written successfully. -/
def jobTwoPkts : FrameJob :=
  { frame := frameA, scaleEnv := scOK, encSendRes := 0,
    encDrains := [DrainStep.yield (pkt5, 0), DrainStep.yield (pkt3, 0),
                  DrainStep.eagain] }

/-- A loop iteration producing the two out-of-order packets. -/
def itTwoPkts : Iteration :=
  { sigs := 0, readRes := 0, decSendRes := 0,
    decDrains := [DrainStep.yield jobTwoPkts, DrainStep.eagain] }

/-- The all-good setup environment with a failing header write. -/
def seC6 : SetupEnv := { seOK with headerWriteOk := false }

theorem scale_ok_shape (env : ScaleEnv) (src : AVFrameData) (w h fmt : Int)
    (g : AVFrameData)
    (hg : (Frame.scale env src w h fmt).res = Outcome.ok (some g)) :
    g.width = w ∧ g.height = h ∧ g.format = fmt ∧ env.swsScaleRows = h := by
  unfold Frame.scale Frame.alloc Frame.alloc_empty at hg
  by_cases h1 : env.frameAllocOk
  · simp only [h1, if_true] at hg
    by_cases h2 : env.getBufferOk
    · simp only [h2, if_true] at hg
      by_cases h3 : env.swsGetContextOk
      · by_cases h4 : env.swsInitOk
        · simp only [h3, h4, not_true, if_false] at hg
          by_cases h5 : env.swsScaleRows ≠ h
          · simp only [Frame.sws_scale_model] at hg
            rw [if_pos (by simpa using h5)] at hg
            simp at hg
          · push_neg at h5
            simp only [Frame.sws_scale_model] at hg
            rw [if_neg (by simpa using h5)] at hg
            simp only [Outcome.ok.injEq, Option.some.injEq] at hg
            subst hg
            exact ⟨rfl, rfl, rfl, h5⟩
        · simp [h3, h4] at hg
      · simp [h3] at hg
    · simp [h2] at hg
  · simp [h1] at hg

theorem scale_src_const (env : ScaleEnv) (src : AVFrameData) (w h fmt : Int) :
    (Frame.scale env src w h fmt).srcAfter = src := by
  unfold Frame.scale Frame.alloc Frame.alloc_empty Frame.sws_scale_model
  by_cases h1 : env.frameAllocOk <;> by_cases h2 : env.getBufferOk <;>
    simp [h1, h2] <;> split_ifs <;> try rfl

/-- Claim C4: for every valid source frame and target (w, h, format),
`Frame::scale` (when its internal target-frame allocation succeeds)
either returns the null frame or returns a new frame whose width, height
and format are exactly the targets and whose reported converted row
count equals exactly the target height; it never returns a truncated
frame, and the source frame is never mutated. -/
theorem C4_scale_exact (env : ScaleEnv) (src : AVFrameData) (w h fmt : Int)
    (h1 : env.frameAllocOk = true) (h2 : env.getBufferOk = true) :
    ((Frame.scale env src w h fmt).res = Outcome.ok none
      ∨ ∃ g, (Frame.scale env src w h fmt).res = Outcome.ok (some g)
          ∧ g.width = w ∧ g.height = h ∧ g.format = fmt ∧ env.swsScaleRows = h)
    ∧ (Frame.scale env src w h fmt).srcAfter = src := by
  refine ⟨?_, scale_src_const env src w h fmt⟩
  by_cases h3 : env.swsGetContextOk
  · by_cases h4 : env.swsInitOk
    · by_cases h5 : env.swsScaleRows = h
      · right
        refine ⟨{ width := w, height := h, format := fmt, pts := 0, pkt_dts := 0,
                  pict_type := 0, data := src.data }, ?_, rfl, rfl, rfl, h5⟩
        simp [Frame.scale, Frame.alloc, Frame.alloc_empty, Frame.sws_scale_model,
              h1, h2, h3, h4, h5]
      · left
        simp [Frame.scale, Frame.alloc, Frame.alloc_empty, Frame.sws_scale_model,
              h1, h2, h3, h4, h5]
    · left
      simp [Frame.scale, Frame.alloc, Frame.alloc_empty, h1, h2, h3, h4]
  · left
    simp [Frame.scale, Frame.alloc, Frame.alloc_empty, h1, h2, h3]

theorem C4_scale_exact_witness :
    scOK.frameAllocOk = true ∧ scOK.getBufferOk = true ∧
    (((Frame.scale scOK frameA 2 2 AV_PIX_FMT_YUV420P).res = Outcome.ok none
      ∨ ∃ g, (Frame.scale scOK frameA 2 2 AV_PIX_FMT_YUV420P).res = Outcome.ok (some g)
          ∧ g.width = 2 ∧ g.height = 2 ∧ g.format = AV_PIX_FMT_YUV420P
          ∧ scOK.swsScaleRows = 2)
    ∧ (Frame.scale scOK frameA 2 2 AV_PIX_FMT_YUV420P).srcAfter = frameA) :=
  ⟨rfl, rfl, C4_scale_exact scOK frameA 2 2 AV_PIX_FMT_YUV420P rfl rfl⟩

/-- Claim C3 (code bug): the code dereferences null handles.  When
`av_frame_alloc` fails, `Frame::alloc(w, h, fmt)` writes
`frame->width/height/format` through the null handle; and when
`Frame::scale` returns the null frame (here: `sws_getContext` failed),
`decode_callback` writes `scale_frame->pts` through the null handle —
both are undefined behaviour, contradicting the claim that the per-frame
path never dereferences a null handle. -/
theorem C3_null_handle_deref :
    Frame.alloc scNoAlloc 640 480 AV_PIX_FMT_YUV420P = Outcome.nullDeref
    ∧ (Frame.scale scNoCtx frameA 2 2 AV_PIX_FMT_YUV420P).res = Outcome.ok none
    ∧ (processFrameJob 1001 0 st0 jobBadScale).1 = true := by
  decide

/-- Claim C9: when the initial submit call fails (negative
`avcodec_send_packet` / `avcodec_send_frame` result), both wrappers
return 0 (success) with the continuation never invoked (empty event
trace) and the state untouched — the submit error is swallowed. -/
theorem C9_submit_error_swallowed {σ : Type} (sendRes : Int) (h : sendRes < 0)
    (ddrains : List (DrainStep AVFrameData)) (fdrains : List (DrainStep AVPacketData))
    (fnD : σ → AVFrameData → Bool × Int × σ) (fnE : σ → AVPacketData → Bool × Int × σ)
    (s : σ) :
    DecoderContext.send_packet sendRes ddrains fnD s
      = { crashed := false, ret := 0, state := s, events := [] }
    ∧ EncoderContext.send_frame sendRes fdrains fnE s
      = { crashed := false, ret := 0, state := s, events := [] } := by
  unfold DecoderContext.send_packet EncoderContext.send_frame
  rw [if_pos h, if_pos h]
  exact ⟨rfl, rfl⟩

theorem C9_submit_error_swallowed_witness :
    (-1 : Int) < 0 ∧
    (DecoderContext.send_packet (-1) ([] : List (DrainStep AVFrameData))
        (fun (s : Nat) _ => (false, 0, s)) 5
      = { crashed := false, ret := 0, state := 5, events := [] }
    ∧ EncoderContext.send_frame (-1) ([] : List (DrainStep AVPacketData))
        (fun (s : Nat) _ => (false, 0, s)) 5
      = { crashed := false, ret := 0, state := 5, events := [] }) :=
  ⟨by decide,
   C9_submit_error_swallowed (-1) (by decide) [] []
     (fun (s : Nat) _ => (false, 0, s)) (fun (s : Nat) _ => (false, 0, s)) 5⟩

theorem drain_loop_canon {α σ : Type} (fn : σ → α → Bool × Int × σ)
    (hfn : ∀ s a, (fn s a).1 = false ∧ 0 ≤ (fn s a).2.1) :
    ∀ (ys : List α) (s : σ),
      (drain_loop id fn (ys.map DrainStep.yield ++ [DrainStep.eagain]) s).events
        = canonEvents ys
      ∧ (drain_loop id fn (ys.map DrainStep.yield ++ [DrainStep.eagain]) s).crashed
        = false := by
  intro ys
  induction ys with
  | nil => intro s; simp [drain_loop, canonEvents]
  | cons a ys ih =>
    intro s
    obtain ⟨hcr, hret⟩ := hfn s a
    have hlt : ¬ (fn s a).2.1 < 0 := not_lt.mpr hret
    simp only [List.map_cons, List.cons_append, drain_loop]
    rcases hfa : fn s a with ⟨cr, r, s'⟩
    rw [hfa] at hcr hlt
    simp only at hcr hlt
    subst hcr
    simp only [if_neg hlt]
    obtain ⟨ih1, ih2⟩ := ih s'
    constructor
    · simp [canonEvents, ih1]
    · simpa using ih2

/-- Claim C2: for every sequence of submitted packets (each successfully
submitted and yielding its frames followed by `EAGAIN`) and every
non-crashing, non-failing continuation, the decode stage produces
exactly the canonical trace: one continuation call per drained frame,
immediately after that frame's receive call and before the next receive
call, in drain order; across the whole sequence the frames reach the
continuation exactly once each, in submission order. -/
theorem C2_continuation_order {σ : Type} (fn : σ → AVFrameData → Bool × Int × σ)
    (s : σ) (ps : List (Int × List AVFrameData))
    (hsend : ∀ p ∈ ps, 0 ≤ p.1)
    (hfn : ∀ s a, (fn s a).1 = false ∧ 0 ≤ (fn s a).2.1) :
    (send_packets fn
        (ps.map fun p => (p.1, p.2.map DrainStep.yield ++ [DrainStep.eagain])) s).2
      = (ps.map fun p => canonEvents p.2).flatten
    ∧ contFrames
        (send_packets fn
          (ps.map fun p => (p.1, p.2.map DrainStep.yield ++ [DrainStep.eagain])) s).2
      = (ps.map fun p => p.2).flatten := by
  have key : ∀ (ps : List (Int × List AVFrameData)) (s : σ), (∀ p ∈ ps, 0 ≤ p.1) →
      (send_packets fn
          (ps.map fun p => (p.1, p.2.map DrainStep.yield ++ [DrainStep.eagain])) s).2
        = (ps.map fun p => canonEvents p.2).flatten := by
    intro ps
    induction ps with
    | nil => intro s _; simp [send_packets]
    | cons p rest ih =>
      intro s hs
      have hp : 0 ≤ p.1 := hs p (List.mem_cons_self p rest)
      have hrest : ∀ q ∈ rest, 0 ≤ q.1 := fun q hq => hs q (List.mem_cons_of_mem p hq)
      simp only [List.map_cons, send_packets]
      have hnot : ¬ p.1 < 0 := not_lt.mpr hp
      simp only [DecoderContext.send_packet, if_neg hnot]
      obtain ⟨h1, _⟩ := drain_loop_canon fn hfn p.2 s
      rw [h1, ih _ hrest]
      simp
  have contCanon : ∀ (ys : List AVFrameData), contFrames (canonEvents ys) = ys := by
    intro ys
    induction ys with
    | nil => simp [canonEvents, contFrames]
    | cons a ys ih =>
      simp only [canonEvents, contFrames, List.map_cons, List.flatten_cons] at ih ⊢
      simp only [List.filterMap_append] at ih ⊢
      simp only [List.cons_append, List.filterMap_cons] at ih ⊢
      simpa using ih
  refine ⟨key ps s hsend, ?_⟩
  rw [key ps s hsend]
  have : ∀ (L : List (List AVFrameData)),
      contFrames ((L.map canonEvents).flatten) = L.flatten := by
    intro L
    induction L with
    | nil => simp [contFrames]
    | cons ys L ih =>
      simp only [List.map_cons, List.flatten_cons, contFrames, List.filterMap_append]
      exact congrArg₂ (· ++ ·) (contCanon ys) ih
  simpa [contFrames] using this (ps.map fun p => p.2)

theorem C2_continuation_order_witness :
    (∀ p ∈ psW, 0 ≤ p.1) ∧
    ((send_packets fnOkW
        (psW.map fun p => (p.1, p.2.map DrainStep.yield ++ [DrainStep.eagain])) ()).2
      = (psW.map fun p => canonEvents p.2).flatten
    ∧ contFrames
        (send_packets fnOkW
          (psW.map fun p => (p.1, p.2.map DrainStep.yield ++ [DrainStep.eagain])) ()).2
      = (psW.map fun p => p.2).flatten) :=
  ⟨by decide,
   C2_continuation_order fnOkW () psW (by decide) (fun s a => ⟨rfl, le_refl 0⟩)⟩

theorem ptsSpec_succ (tbNum : Int) (n : Nat) :
    ptsSpec tbNum (n + 1) = ptsSpec tbNum n ++ [(n : Int) * tbNum] := by
  unfold ptsSpec
  rw [List.range_succ, List.map_append]
  rfl

theorem enc_loop_effect (sIdx : Int) :
    ∀ (ds : List (DrainStep (AVPacketData × Int))) (st : DrvSt),
    ∃ ps : List AVPacketData,
      (drain_loop (fun _ => -1) (encode_callback sIdx) ds st).crashed = false
      ∧ (drain_loop (fun _ => -1) (encode_callback sIdx) ds st).state
        = { st with muxIn := st.muxIn ++ ps,
                    written := st.written ++ ps.map (stamp sIdx) } := by
  intro ds
  induction ds with
  | nil => intro st; exact ⟨[], rfl, by simp [drain_loop]⟩
  | cons d rest ih =>
    intro st
    cases d with
    | eagain => exact ⟨[], rfl, by simp [drain_loop]⟩
    | eof => exact ⟨[], rfl, by simp [drain_loop]⟩
    | err e => exact ⟨[], rfl, by simp [drain_loop]⟩
    | yield pw =>
      by_cases hw : pw.2 < 0
      · refine ⟨[pw.1], ?_, ?_⟩
        · simp [drain_loop, encode_callback, hw]
        · simp [drain_loop, encode_callback, hw]
      · obtain ⟨ps, hcr, hst⟩ :=
          ih { st with muxIn := st.muxIn ++ [pw.1],
                       written := st.written ++ [stamp sIdx pw.1] }
        refine ⟨pw.1 :: ps, ?_, ?_⟩
        · simp only [drain_loop, encode_callback]
          rw [if_neg hw]
          exact hcr
        · simp only [drain_loop, encode_callback]
          rw [if_neg hw]
          rw [hst]
          simp [List.append_assoc]

theorem send_frame_effect (sIdx sendRes : Int)
    (ds : List (DrainStep (AVPacketData × Int))) (st : DrvSt) :
    ∃ ps : List AVPacketData,
      (EncoderContext.send_frame sendRes ds (encode_callback sIdx) st).crashed = false
      ∧ (EncoderContext.send_frame sendRes ds (encode_callback sIdx) st).state
        = { st with muxIn := st.muxIn ++ ps,
                    written := st.written ++ ps.map (stamp sIdx) } := by
  unfold EncoderContext.send_frame
  by_cases hs : sendRes < 0
  · exact ⟨[], by rw [if_pos hs], by rw [if_pos hs]; simp⟩
  · obtain ⟨ps, h1, h2⟩ := enc_loop_effect sIdx ds st
    exact ⟨ps, by rw [if_neg hs]; exact h1, by rw [if_neg hs]; exact h2⟩

theorem processFrameJob_effect (tbNum sIdx : Int) (st : DrvSt) (job : FrameJob) :
    ((processFrameJob tbNum sIdx st job).2.2 = st
      ∧ (processFrameJob tbNum sIdx st job).1 = true)
    ∨ ∃ g ps,
        (Frame.scale job.scaleEnv job.frame job.frame.width job.frame.height
          AV_PIX_FMT_YUV420P).res = Outcome.ok (some g)
        ∧ (processFrameJob tbNum sIdx st job).1 = false
        ∧ (processFrameJob tbNum sIdx st job).2.2
          = { counter := st.counter + 1,
              handed := st.handed ++
                [{ g with pts := st.counter * tbNum,
                          pkt_dts := st.counter * tbNum,
                          pict_type := AV_PICTURE_TYPE_NONE }],
              muxIn := st.muxIn ++ ps,
              written := st.written ++ ps.map (stamp sIdx) } := by
  unfold processFrameJob
  rcases hres : (Frame.scale job.scaleEnv job.frame job.frame.width job.frame.height
      AV_PIX_FMT_YUV420P).res with g | _
  case nullDeref => exact Or.inl ⟨rfl, rfl⟩
  case ok =>
    cases g with
    | none => exact Or.inl ⟨rfl, rfl⟩
    | some g =>
      right
      obtain ⟨ps, hcr, hst⟩ := send_frame_effect sIdx job.encSendRes job.encDrains
        { st with counter := st.counter + 1,
                  handed := st.handed ++
                    [{ g with pts := st.counter * tbNum,
                              pkt_dts := st.counter * tbNum,
                              pict_type := AV_PICTURE_TYPE_NONE }] }
      exact ⟨g, ps, rfl, rfl, by simpa using hst⟩

theorem DrvInv_processFrameJob (tbNum sIdx : Int) (st : DrvSt) (job : FrameJob)
    (h : DrvInv tbNum sIdx st) :
    DrvInv tbNum sIdx (processFrameJob tbNum sIdx st job).2.2 := by
  rcases processFrameJob_effect tbNum sIdx st job with ⟨heq, _⟩ | ⟨g, ps, _, _, heq⟩
  · rw [heq]; exact h
  · rw [heq]
    obtain ⟨h1, h2, h3, h4⟩ := h
    refine ⟨?_, ?_, ?_, ?_⟩
    · simp only [List.length_append, List.length_cons, List.length_nil]
      push_cast
      omega
    · show (st.handed ++ _).map (fun f => f.pts) = _
      rw [List.map_append, h2]
      simp only [List.length_append, List.length_cons, List.length_nil]
      rw [ptsSpec_succ]
      congr 1
      simp only [List.map_cons, List.map_nil]
      rw [h1]
    · intro f hf
      rcases List.mem_append.mp hf with hf | hf
      · exact h3 f hf
      · simp only [List.mem_cons, List.not_mem_nil, or_false] at hf
        subst hf
        rfl
    · rw [h4, List.map_append]

theorem DrvInv_dec_loop (tbNum sIdx : Int) :
    ∀ (ds : List (DrainStep FrameJob)) (st : DrvSt), DrvInv tbNum sIdx st →
      DrvInv tbNum sIdx (drain_loop id (processFrameJob tbNum sIdx) ds st).state := by
  intro ds
  induction ds with
  | nil => intro st h; exact h
  | cons d rest ih =>
    intro st h
    cases d with
    | eagain => exact h
    | eof => exact h
    | err e => exact h
    | yield j =>
      have hnext := DrvInv_processFrameJob tbNum sIdx st j h
      rcases hp : processFrameJob tbNum sIdx st j with ⟨cr, r, st'⟩
      rw [hp] at hnext
      cases cr with
      | true => simp only [drain_loop, hp]; exact hnext
      | false =>
        simp only [drain_loop, hp]
        by_cases hr : r < 0
        · rw [if_pos hr]; exact hnext
        · rw [if_neg hr]; exact ih st' hnext

theorem DrvInv_send_packet (tbNum sIdx sendRes : Int) (ds : List (DrainStep FrameJob))
    (st : DrvSt) (h : DrvInv tbNum sIdx st) :
    DrvInv tbNum sIdx
      (DecoderContext.send_packet sendRes ds (processFrameJob tbNum sIdx) st).state := by
  unfold DecoderContext.send_packet
  by_cases hs : sendRes < 0
  · rw [if_pos hs]; exact h
  · rw [if_neg hs]; exact DrvInv_dec_loop tbNum sIdx ds st h

set_option maxHeartbeats 1000000 in
theorem DrvInv_driver_loop (tbNum sIdx : Int) :
    ∀ (iters : List Iteration) (sig : Nat) (st : DrvSt), DrvInv tbNum sIdx st →
      DrvInv tbNum sIdx (driver_loop tbNum sIdx iters sig st).st := by
  intro iters
  induction iters with
  | nil => intro sig st h; exact h
  | cons it rest ih =>
    intro sig st h
    simp only [driver_loop]
    by_cases h1 : 0 < sig + it.sigs
    · rw [if_pos h1]; exact h
    · rw [if_neg h1]
      by_cases h2 : it.readRes < 0
      · rw [if_pos h2]; exact h
      · rw [if_neg h2]
        have hnext := DrvInv_send_packet tbNum sIdx it.decSendRes it.decDrains st h
        by_cases h3 : (DecoderContext.send_packet it.decSendRes it.decDrains
            (processFrameJob tbNum sIdx) st).crashed = true
        · rw [if_pos h3]; exact hnext
        · rw [if_neg h3]; exact ih (sig + it.sigs) _ hnext

set_option maxHeartbeats 2000000 in
theorem DrvInv_runMain (se : SetupEnv) (iters : List Iteration) :
    DrvInv se.tbNum se.createStreamRes (runMain se iters).st := by
  have hinit : DrvInv se.tbNum se.createStreamRes
      { counter := 0, handed := [], muxIn := [], written := [] } := by
    refine ⟨rfl, rfl, ?_, rfl⟩
    intro f hf
    simp at hf
  unfold runMain
  split_ifs
  all_goals
    first
      | exact DrvInv_driver_loop se.tbNum se.createStreamRes iters 0 _ hinit
      | exact hinit

theorem chain_lt_ptsSpec (n : Nat) (t : Int) (ht : 0 < t) :
    List.Chain' (· < ·) (ptsSpec t n) := by
  rw [ptsSpec, List.chain'_iff_get]
  intro i hi
  simp only [List.get_map, List.get_range]
  have h1 : ((i : Int)) < ((i + 1 : Nat) : Int) := by exact_mod_cast Nat.lt_succ_self i
  exact mul_lt_mul_of_pos_right h1 ht

/-- Claim C1: in every run, the i-th frame (from 0) handed to the
encoder is stamped `pts = i * time_base.num` with `pkt_dts = pts`, so
for a positive time-base numerator the handed pts sequence is strictly
increasing; the frame counter equals the number of handed frames (it is
incremented exactly once per hand-off and never reset). -/
theorem C1_timestamps (se : SetupEnv) (iters : List Iteration) (h : 0 < se.tbNum) :
    (runMain se iters).st.handed.map (fun f => f.pts)
        = ptsSpec se.tbNum (runMain se iters).st.handed.length
    ∧ (∀ f ∈ (runMain se iters).st.handed, f.pkt_dts = f.pts)
    ∧ List.Chain' (· < ·) ((runMain se iters).st.handed.map (fun f => f.pts))
    ∧ (runMain se iters).st.counter = ((runMain se iters).st.handed.length : Int) := by
  obtain ⟨h1, h2, h3, h4⟩ := DrvInv_runMain se iters
  refine ⟨h2, h3, ?_, h1⟩
  rw [h2]
  exact chain_lt_ptsSpec _ _ h

theorem C1_timestamps_witness :
    0 < seOK.tbNum ∧
    ((runMain seOK [itGood, itGood]).st.handed.map (fun f => f.pts)
        = ptsSpec seOK.tbNum (runMain seOK [itGood, itGood]).st.handed.length
    ∧ (∀ f ∈ (runMain seOK [itGood, itGood]).st.handed, f.pkt_dts = f.pts)
    ∧ List.Chain' (· < ·)
        ((runMain seOK [itGood, itGood]).st.handed.map (fun f => f.pts))
    ∧ (runMain seOK [itGood, itGood]).st.counter
        = ((runMain seOK [itGood, itGood]).st.handed.length : Int)) :=
  ⟨by decide, C1_timestamps seOK [itGood, itGood] (by decide)⟩

/-- Claim C5 (amended): every packet handed to the mux stage is written
with the stream index assigned at stream creation stamped on it, in
exact hand-off order — the write is `av_write_frame`, a direct append
with no timestamp interleaving. -/
theorem C5_stream_index_stamped (se : SetupEnv) (iters : List Iteration) :
    (runMain se iters).st.written
      = (runMain se iters).st.muxIn.map (stamp se.createStreamRes) :=
  (DrvInv_runMain se iters).2.2.2

/-- Claim C5 counterexample: the code's write (`av_write_frame`) does
not interleave by declared timestamps.  When the encoder emits packets
with dts 5 then 3, the output file holds them in that order (not
dts-sorted), while the interleaving write the spec describes would
produce dts order 3, 5.  The MP4 output format requires interleaved,
dts-ordered packets, so the claim is false on this run. -/
theorem C5_counterexample :
    ((runMain seOK [itTwoPkts]).st.written.map fun p => p.dts) = [5, 3]
    ∧ dtsSorted ((runMain seOK [itTwoPkts]).st.written.map fun p => p.dts) = false
    ∧ ((interleavedFile (runMain seOK [itTwoPkts]).st.muxIn).map fun p => p.dts)
        = [3, 5] := by
  decide

/-- Claim C6 counterexample: a fatal setup failure (header write) throws
`std::runtime_error` out of `main`, so the process terminates without
ever attempting `av_write_trailer` — refuting the claim that the trailer
write is attempted on every fatal setup failure. -/
theorem C6_counterexample :
    (runMain seC6 []).thrownAt = some SetupStage.headerWrite
    ∧ (runMain seC6 []).trailerWritten = false := by
  decide

set_option maxHeartbeats 2000000 in
/-- Claim C6 (amended): `av_write_trailer` is attempted exactly on runs
whose setup phase fully succeeds and whose read loop does not crash on a
null dereference; that covers normal end-of-stream and cooperative-stop
terminations, while every fatal setup failure terminates (by uncaught
exception) before the trailer write. -/
theorem C6_trailer_iff (se : SetupEnv) (iters : List Iteration) :
    (runMain se iters).trailerWritten = true
      ↔ (setupOk se = true ∧ (runMain se iters).crashed = false) := by
  unfold runMain setupOk
  split_ifs
  all_goals simp_all [MainOut.abort, not_lt]

/-- Claim C7 (code bug): a transient scale failure does terminate the
run.  With two captured packets, the first decoding to a frame whose
scale fails, the run crashes on the null dereference in
`decode_callback` (`scale_frame->pts`), only one packet is ever read
(the second is never processed), and the trailer is never written —
where the claim requires the driver to discard the failed unit and
proceed to the next captured packet. -/
theorem C7_scale_failure_crashes :
    (runMain seOK [itBad, itGood]).crashed = true
    ∧ (runMain seOK [itBad, itGood]).reads = 1
    ∧ (runMain seOK [itBad, itGood]).trailerWritten = false := by
  decide

theorem dropLast_all_cons_false (l : List Bool)
    (h : l.dropLast.all (fun b => !b) = true) :
    ((false :: l).dropLast.all (fun b => !b)) = true := by
  cases l with
  | nil => rfl
  | cons c cs => simpa [List.dropLast] using h

theorem driver_checks_all_false (tbNum sIdx : Int) :
    ∀ (iters : List Iteration) (sig : Nat) (st : DrvSt),
      ((driver_loop tbNum sIdx iters sig st).checks.dropLast.all (fun b => !b))
        = true := by
  intro iters
  induction iters with
  | nil => intro sig st; rfl
  | cons it rest ih =>
    intro sig st
    simp only [driver_loop]
    by_cases h1 : 0 < sig + it.sigs
    · rw [if_pos h1]; rfl
    · rw [if_neg h1]
      by_cases h2 : it.readRes < 0
      · rw [if_pos h2]; rfl
      · rw [if_neg h2]
        by_cases h3 : (DecoderContext.send_packet it.decSendRes it.decDrains
            (processFrameJob tbNum sIdx) st).crashed = true
        · rw [if_pos h3]; rfl
        · rw [if_neg h3]
          exact dropLast_all_cons_false _ (ih (sig + it.sigs) _)

theorem driver_reads_count (tbNum sIdx : Int) :
    ∀ (iters : List Iteration) (sig : Nat) (st : DrvSt),
      (driver_loop tbNum sIdx iters sig st).reads
        = (driver_loop tbNum sIdx iters sig st).checks.count false := by
  intro iters
  induction iters with
  | nil => intro sig st; rfl
  | cons it rest ih =>
    intro sig st
    simp only [driver_loop]
    by_cases h1 : 0 < sig + it.sigs
    · rw [if_pos h1]; rfl
    · rw [if_neg h1]
      by_cases h2 : it.readRes < 0
      · rw [if_pos h2]; rfl
      · rw [if_neg h2]
        by_cases h3 : (DecoderContext.send_packet it.decSendRes it.decDrains
            (processFrameJob tbNum sIdx) st).crashed = true
        · rw [if_pos h3]; rfl
        · rw [if_neg h3]
          have hih := ih (sig + it.sigs)
            (DecoderContext.send_packet it.decSendRes it.decDrains
              (processFrameJob tbNum sIdx) st).state
          generalize hro : driver_loop tbNum sIdx rest (sig + it.sigs)
            (DecoderContext.send_packet it.decSendRes it.decDrains
              (processFrameJob tbNum sIdx) st).state = ro at hih ⊢
          show ro.reads + 1 = (false :: ro.checks).count false
          simp [List.count_cons, hih]

theorem driver_loop_sig_cap (tbNum sIdx : Int) :
    ∀ (iters : List Iteration) (sig sig' : Nat) (st : DrvSt), (0 < sig ↔ 0 < sig') →
      driver_loop tbNum sIdx
          (iters.map fun it => { it with sigs := min it.sigs 1 }) sig' st
        = driver_loop tbNum sIdx iters sig st := by
  intro iters
  induction iters with
  | nil => intro sig sig' st h; rfl
  | cons it rest ih =>
    intro sig sig' st h
    simp only [List.map_cons, driver_loop]
    have h1 : (0 < sig' + min it.sigs 1) ↔ (0 < sig + it.sigs) := by omega
    by_cases hb : 0 < sig + it.sigs
    · rw [if_pos hb, if_pos (h1.mpr hb)]
    · rw [if_neg hb, if_neg (fun hx => hb (h1.mp hx))]
      by_cases h2 : it.readRes < 0
      · rw [if_pos h2, if_pos h2]
      · rw [if_neg h2, if_neg h2]
        by_cases h3 : (DecoderContext.send_packet it.decSendRes it.decDrains
            (processFrameJob tbNum sIdx) st).crashed = true
        · rw [if_pos h3, if_pos h3]
        · rw [if_neg h3, if_neg h3]
          rw [ih (sig + it.sigs) (sig' + min it.sigs 1) _ (by omega)]

set_option maxHeartbeats 2000000 in
/-- Claim C8: the stop flag is checked exactly once per outer loop
iteration and a read packet's full chain completes before the next
check: in the observed check sequence only the final check can read
true, one `av_read_frame` call happens per false check (so once the flag
is observed true — or a read fails — no further packet is read), and
capping the number of handler invocations before each check at one
(idempotent stop) leaves the whole run unchanged. -/
theorem C8_stop_flag (se : SetupEnv) (iters : List Iteration) :
    ((runMain se iters).checks.dropLast.all (fun b => !b)) = true
    ∧ (runMain se iters).reads = (runMain se iters).checks.count false
    ∧ runMain se (iters.map fun it => { it with sigs := min it.sigs 1 })
        = runMain se iters := by
  refine ⟨?_, ?_, ?_⟩
  · unfold runMain
    split_ifs
    all_goals
      first
        | rfl
        | exact driver_checks_all_false se.tbNum se.createStreamRes iters 0 _
  · unfold runMain
    split_ifs
    all_goals
      first
        | rfl
        | exact driver_reads_count se.tbNum se.createStreamRes iters 0 _
  · have hloop := driver_loop_sig_cap se.tbNum se.createStreamRes iters 0 0
      { counter := 0, handed := [], muxIn := [], written := [] } Iff.rfl
    simp only [runMain]
    rw [hloop]

/-- Claim C10: for every decoded frame the driver processes, the scale
call targets the source frame's own width and height with pixel format
`AV_PIX_FMT_YUV420P`; hence every frame newly handed to the encoder by
this call has width and height identical to the source frame and format
`AV_PIX_FMT_YUV420P`. -/
theorem C10_scale_target_dims (tbNum sIdx : Int) (st : DrvSt) (job : FrameJob) :
    (((processFrameJob tbNum sIdx st job).2.2.handed.drop st.handed.length).all
      (fun f => (f.width == job.frame.width) && (f.height == job.frame.height)
        && (f.format == AV_PIX_FMT_YUV420P))) = true := by
  rcases processFrameJob_effect tbNum sIdx st job with ⟨heq, _⟩ | ⟨g, ps, hscale, _, heq⟩
  · rw [heq, List.drop_length]
    rfl
  · rw [heq]
    obtain ⟨hw, hh, hf, _⟩ := scale_ok_shape job.scaleEnv job.frame job.frame.width
      job.frame.height AV_PIX_FMT_YUV420P g hscale
    rw [List.drop_left]
    simp [hw, hh, hf]
